import Mathlib

/-!
Shallow embedding of the libslack coprocess module (coproc.c).

The module spawns a child process connected to the parent either by a
pair of pipes or by a pseudo-terminal, resolves the command either via
a shell invocation, a direct image replacement, or a PATH-directed
search, and tears the handle down idempotently.

The embedding models:
  * the lexical shell-metacharacter classifier (SHELL_META_CHARACTERS,
    strcspn-based test in coproc_open / coproc_pty_open);
  * the search-path selection and splitting in do_exec;
  * the interpreter-fallback argv builder new_shargv;
  * do_exec itself, as a function from an exec oracle (which says, for
    each attempted execve call, whether it succeeds or fails and with
    which errno) to the list of exec attempts the child performs;
  * coproc_open / coproc_pty_open, as functions from a syscall oracle
    to a result plus a trace of resource events (pipes created,
    descriptors closed, fork performed);
  * coproc_close / coproc_pty_close over explicit descriptor state.

Pointers that may be NULL are modelled as Option; a null-terminated
argv vector is a List String; errno values are Nat.
-/

namespace Coproc

/-- errno value for "permission denied". -/
def EACCES : Nat := 13

/-- errno value for "exec format error". -/
def ENOEXEC : Nat := 8

/-- errno value for "no such file or directory". -/
def ENOENT : Nat := 2

/-- errno value for "invalid argument". -/
def EINVAL : Nat := 22

/-- The shell metacharacter set of coproc.c:
`"|&;()<>[]{}$`'~\"\\*? \t\r\n"` (braces, backtick, quotes written via
their code points). -/
def SHELL_META_CHARACTERS : List Char :=
  ['|', '&', ';', '(', ')', '<', '>', '[', ']', Char.ofNat 123, Char.ofNat 125,
   '$', Char.ofNat 96, Char.ofNat 39, '~', Char.ofNat 34, '\\', '*', '?',
   ' ', '\t', '\r', '\n']

/-- `strcspn s set`: length of the maximal prefix of `s` containing no
character of `set` (as in the C library function). -/
def strcspn (s : List Char) (set : List Char) : Nat :=
  match s with
  | [] => 0
  | c :: rest => if set.contains c then 0 else strcspn rest set + 1

/-- The classifier of coproc_open / coproc_pty_open:
`cmd[strcspn(cmd, SHELL_META_CHARACTERS)] != '\0'`, i.e. the scan
stopped before the end of the string. -/
def hasMeta (cmd : String) : Bool :=
  decide (strcspn cmd.toList SHELL_META_CHARACTERS < cmd.toList.length)

/-- PATH_SEP on POSIX systems: the slash. -/
def PATH_SEP : Char := '/'

/-- PATH_LIST_SEP on POSIX systems: the colon. -/
def PATH_LIST_SEP : Char := ':'

/-- DEFAULT_ROOT_PATH of coproc.c. -/
def DEFAULT_ROOT_PATH : String := "/bin:/usr/bin"

/-- DEFAULT_USER_PATH of coproc.c. -/
def DEFAULT_USER_PATH : String := ":/bin:/usr/bin"

/-- The search path used by do_exec: `getenv("PATH")` if set, else the
root default when `geteuid()` is zero and the user default otherwise. -/
def searchPath (pathEnv : Option String) (euid : Nat) : String :=
  match pathEnv with
  | some p => p
  | none => if euid ≠ 0 then DEFAULT_USER_PATH else DEFAULT_ROOT_PATH

/-- Splits a character list at every PATH_LIST_SEP, keeping empty
segments, mirroring the `strchr(s, PATH_LIST_SEP)` loop of do_exec:
each segment runs from `s` to the next separator or the end of the
string. `acc` holds the (reversed) characters of the current segment. -/
def splitPathAux : List Char → List Char → List (List Char)
  | [], acc => [acc.reverse]
  | c :: rest, acc =>
    if c = PATH_LIST_SEP then acc.reverse :: splitPathAux rest []
    else splitPathAux rest (c :: acc)

/-- The candidate-directory sequence do_exec derives from a search
path: split on the list separator, empty segments kept. -/
def splitPath (path : String) : List String :=
  (splitPathAux path.toList []).map List.asString

/-- The candidate path built by
`snprintf(cmdbuf, 512, "%.*s%s%s", f - s, s, (f - s) ? PATH_SEP_STR : "", cmd)`:
the directory, a slash if the directory is nonempty, then the command. -/
def mkCandidate (dir cmd : String) : String :=
  if dir.length = 0 then cmd else dir ++ "/" ++ cmd

/-- The interpreter-fallback argv builder new_shargv of coproc.c:
slot 0 is "/bin/sh", slot 1 is the attempted command path, slots 2..
copy argv[1..] (argv[0] is dropped), null terminated. -/
def new_shargv (cmd : String) (argv : List String) : List String :=
  "/bin/sh" :: cmd :: argv.drop 1

/-- One execve call: the executable path, the argument vector, and the
environment vector actually passed. -/
structure ExecCall where
  path : String
  args : List String
  env : List String
deriving DecidableEq, Repr

/-- Outcome of one execve call: success (the image is replaced and the
calling code never resumes) or failure with an errno. -/
inductive ExecResult where
  | success
  | fail (errno : Nat)
deriving DecidableEq, Repr

/-- Events observable from the child during do_exec: an exec attempt
with its outcome, or a path-search candidate skipped because the
candidate path did not fit the 512-byte buffer. -/
inductive DoExecEvent where
  | exec (c : ExecCall) (r : ExecResult)
  | skippedCandidate (cand : String)
deriving DecidableEq, Repr

/-- `(envv) ? envv : environ`: the caller-supplied environment when
given, the current process environment otherwise. -/
def envOf (envv : Option (List String)) (environ : List String) : List String :=
  match envv with
  | some e => e
  | none => environ

/-- The PATH-search loop of do_exec over the remaining candidate
directories. For each candidate in order: a candidate path of length
≥ 512 is skipped (`snprintf(...) >= 512 → continue`); a successful
execve replaces the image, ending everything; a failure with EACCES
continues with the next candidate; a failure with ENOEXEC performs one
interpreter-fallback execve of "/bin/sh" with the new_shargv vector and
then breaks out of the loop whatever that retry returned; any other
failure falls off the end of the loop body, so the search continues
with the next candidate. -/
def pathSearchLoop (cmd : String) (argv : List String) (env : List String)
    (ex : ExecCall → ExecResult) : List String → List DoExecEvent
  | [] => []
  | dir :: rest =>
    let cand := mkCandidate dir cmd
    if 512 ≤ cand.length then
      .skippedCandidate cand :: pathSearchLoop cmd argv env ex rest
    else
      let call : ExecCall := ⟨cand, argv, env⟩
      match ex call with
      | .success => [.exec call .success]
      | .fail e =>
        if e = EACCES then
          .exec call (.fail e) :: pathSearchLoop cmd argv env ex rest
        else if e = ENOEXEC then
          let shcall : ExecCall := ⟨"/bin/sh", new_shargv cand argv, env⟩
          [.exec call (.fail e), .exec shcall (ex shcall)]
        else
          .exec call (.fail e) :: pathSearchLoop cmd argv env ex rest

/-- `strchr(cmd, PATH_SEP)`: does the command name a specific file? -/
def containsSep (cmd : String) : Bool :=
  cmd.toList.contains PATH_SEP

/-- do_exec of coproc.c, as the list of exec attempts the child makes.
With metacharacters: one execve of "/bin/sh" with argv
["sh", "-c", cmd]. Without metacharacters but with a slash in cmd: a
direct execve of cmd, retried once via "/bin/sh" with the new_shargv
vector when it fails with ENOEXEC. Otherwise: the PATH search over
`splitPath (searchPath pathEnv euid)`. -/
def do_exec (has_meta : Bool) (cmd : String) (argv : List String)
    (envv : Option (List String)) (environ : List String)
    (pathEnv : Option String) (euid : Nat)
    (ex : ExecCall → ExecResult) : List DoExecEvent :=
  let env := envOf envv environ
  if has_meta then
    let call : ExecCall := ⟨"/bin/sh", ["sh", "-c", cmd], env⟩
    [.exec call (ex call)]
  else if containsSep cmd then
    let call : ExecCall := ⟨cmd, argv, env⟩
    match ex call with
    | .success => [.exec call .success]
    | .fail e =>
      if e = ENOEXEC then
        let shcall : ExecCall := ⟨"/bin/sh", new_shargv cmd argv, env⟩
        [.exec call (.fail e), .exec shcall (ex shcall)]
      else
        [.exec call (.fail e)]
  else
    pathSearchLoop cmd argv env ex (splitPath (searchPath pathEnv euid))

/-- Resource events observable in the parent during coproc_open /
coproc_pty_open: a pipe created (read and write descriptor), a
descriptor closed, a child forked, a pseudo-terminal pair created by
pty_fork. -/
inductive OpenEvent where
  | pipeCreated (rd wr : Nat)
  | fdClosed (fd : Nat)
  | forked (pid : Int)
  | ptyForked (pid : Int)
deriving DecidableEq, Repr

/-- Syscall oracle for one coproc_open run: the descriptor pair
returned by each pipe() call (none = the call fails), and the pid
returned to the parent by fork() (none = fork fails). -/
structure OpenEnv where
  pipe1 : Option (Nat × Nat)
  pipe2 : Option (Nat × Nat)
  forkPid : Option Int
deriving DecidableEq, Repr

/-- Result of coproc_open / coproc_pty_open in the parent: einval is
`return set_errno(EINVAL)` from argument validation; sysfail is
`return -1` after a failed pipe/fork/pty_fork with that call's errno
left in place; ok carries the child pid and the values written to
`*to` and `*from` (coproc_open) — `*to`/`*from` are written only here. -/
inductive OpenResult where
  | einval
  | sysfail
  | ok (pid : Int) (toFd fromFd : Nat)
deriving DecidableEq, Repr

/-- The argument-validation condition of coproc_open: some pointer
argument is null, or argv is inconsistent with the metacharacter
classification of cmd. -/
def openBadArgs (toPtr fromPtr : Bool) (cmd : Option String)
    (argv : Option (List String)) : Bool :=
  !toPtr || !fromPtr || cmd.isNone ||
    match cmd with
    | none => true
    | some c => (hasMeta c && argv.isSome) || (!hasMeta c && argv.isNone)

/-- coproc_open of coproc.c, parent side, as a function of the
nullability of `to`/`from` (true = non-null), `cmd`, `argv` and the
syscall oracle: validate; create the to-pipe; create the from-pipe,
closing the to-pipe on failure; fork, closing all four descriptors on
failure; on success close the child's ends (to_pipe[RD], from_pipe[WR])
and hand to_pipe[WR] and from_pipe[RD] to the caller. -/
def coproc_open (toPtr fromPtr : Bool) (cmd : Option String)
    (argv : Option (List String)) (env : OpenEnv) :
    OpenResult × List OpenEvent :=
  if openBadArgs toPtr fromPtr cmd argv then (.einval, [])
  else
    match env.pipe1 with
    | none => (.sysfail, [])
    | some (rd1, wr1) =>
      match env.pipe2 with
      | none =>
        (.sysfail, [.pipeCreated rd1 wr1, .fdClosed rd1, .fdClosed wr1])
      | some (rd2, wr2) =>
        match env.forkPid with
        | none =>
          (.sysfail,
           [.pipeCreated rd1 wr1, .pipeCreated rd2 wr2,
            .fdClosed rd1, .fdClosed wr1, .fdClosed rd2, .fdClosed wr2])
        | some pid =>
          (.ok pid wr1 rd2,
           [.pipeCreated rd1 wr1, .pipeCreated rd2 wr2, .forked pid,
            .fdClosed rd1, .fdClosed wr2])

/-- The argument-validation condition of coproc_pty_open: masterfd,
slavename or cmd is null, slavenamesize is under 64, or argv is
inconsistent with the metacharacter classification of cmd. -/
def ptyOpenBadArgs (masterPtr slavePtr : Bool) (slavenamesize : Nat)
    (cmd : Option String) (argv : Option (List String)) : Bool :=
  !masterPtr || !slavePtr || slavenamesize < 64 || cmd.isNone ||
    match cmd with
    | none => true
    | some c => (hasMeta c && argv.isSome) || (!hasMeta c && argv.isNone)

/-- coproc_pty_open of coproc.c, parent side: validate, then call
pty_fork (the pseudo-terminal collaborator), which on failure creates
nothing and on success yields the child pid with the master descriptor
and subordinate name filled in. -/
def coproc_pty_open (masterPtr slavePtr : Bool) (slavenamesize : Nat)
    (cmd : Option String) (argv : Option (List String))
    (ptyForkPid : Option Int) : OpenResult × List OpenEvent :=
  if ptyOpenBadArgs masterPtr slavePtr slavenamesize cmd argv then (.einval, [])
  else
    match ptyForkPid with
    | none => (.sysfail, [])
    | some pid => (.ok pid 0 0, [.ptyForked pid])

/-- Pipe descriptors created by a trace of open events. -/
def createdFds : List OpenEvent → List Nat
  | [] => []
  | .pipeCreated rd wr :: rest => rd :: wr :: createdFds rest
  | _ :: rest => createdFds rest

/-- Descriptors explicitly closed by a trace of open events. -/
def closedFds : List OpenEvent → List Nat
  | [] => []
  | .fdClosed fd :: rest => fd :: closedFds rest
  | _ :: rest => closedFds rest

/-- Did a fork happen in a trace of open events? -/
def forkHappened : List OpenEvent → Bool
  | [] => false
  | .forked _ :: _ => true
  | .ptyForked _ :: _ => true
  | _ :: rest => forkHappened rest

/-- Result of one coproc_close call: the int return value, the final
values behind the `to` and `from` pointers, and the descriptors
actually passed to close(). -/
structure CloseResult where
  ret : Int
  toOut : Option Int
  fromOut : Option Int
  closedList : List Int
deriving DecidableEq, Repr

/-- coproc_close of coproc.c over explicit state. `toP`/`fm` are the
pointer arguments (none = null pointer, some v = points at value v);
`wait` is the waitpid oracle for this pid (none = waitpid fails, some
status = status stored by waitpid). `*to` is closed and set to -1 only
when non-null and not already -1; likewise `*from`; then waitpid runs
unless pid is -1, in which case the initial status 0 is returned. -/
def coproc_close (pid : Int) (toP fm : Option Int) (wait : Option Int) :
    CloseResult :=
  let step : Option Int → Option Int × List Int := fun p =>
    match p with
    | some v => if v ≠ -1 then (some (-1), [v]) else (some v, [])
    | none => (none, [])
  let (to2, c1) := step toP
  let (fm2, c2) := step fm
  let ret : Int :=
    if pid ≠ -1 then
      match wait with
      | none => -1
      | some status => status
    else 0
  ⟨ret, to2, fm2, c1 ++ c2⟩

/-- Result of one coproc_pty_close call: the int return value, the
final value behind the masterfd pointer, the number of pty_release
calls performed on the subordinate name, and the descriptors actually
passed to close(). -/
structure PtyCloseResult where
  ret : Int
  masterOut : Option Int
  releases : Nat
  closedList : List Int
deriving DecidableEq, Repr

/-- coproc_pty_close of coproc.c over explicit state. pty_release and
close(*masterfd) both happen only under the
`masterfd && *masterfd != -1` guard; then waitpid runs unless pid is
-1, in which case the initial status 0 is returned. -/
def coproc_pty_close (pid : Int) (masterfd : Option Int)
    (wait : Option Int) : PtyCloseResult :=
  let (m2, releases, closed) :=
    match masterfd with
    | some v =>
      if v ≠ -1 then (some (-1 : Int), 1, [v]) else (some v, 0, [])
    | none => (none, 0, ([] : List Int))
  let ret : Int :=
    if pid ≠ -1 then
      match wait with
      | none => -1
      | some status => status
    else 0
  ⟨ret, m2, releases, closed⟩

/-- The metacharacter set as the specification enumerates it: vertical
bar, ampersand, semicolon, open and close parenthesis, less-than,
greater-than, open and close square bracket, open and close brace,
dollar, backtick, single quote, double quote, tilde, backslash,
asterisk, question mark, space, tab, carriage return, newline. -/
def claimMetaChars : List Char :=
  ['|', '&', ';', '(', ')', '<', '>', '[', ']', Char.ofNat 123, Char.ofNat 125,
   '$', Char.ofNat 96, Char.ofNat 39, Char.ofNat 34, '~', '\\', '*', '?',
   ' ', '\t', '\r', '\n']

lemma contains_iff_mem {l : List Char} {c : Char} : l.contains c = true ↔ c ∈ l :=
  List.elem_iff

lemma strcspn_lt_iff (s set : List Char) :
    strcspn s set < s.length ↔ ∃ c ∈ s, c ∈ set := by
  induction s with
  | nil => simp [strcspn]
  | cons c rest ih =>
    by_cases h : c ∈ set
    · have hb : set.contains c = true := contains_iff_mem.mpr h
      have h0 : strcspn (c :: rest) set = 0 := by simp [strcspn, hb, h]
      rw [h0, List.length_cons]
      constructor
      · intro _
        exact ⟨c, List.mem_cons_self c rest, h⟩
      · intro _
        exact Nat.succ_pos _
    · have hb : set.contains c = false := by
        rw [Bool.eq_false_iff]
        intro hc
        exact h (contains_iff_mem.mp hc)
      have h1 : strcspn (c :: rest) set = strcspn rest set + 1 := by simp [strcspn, hb, h]
      rw [h1, List.length_cons, Nat.add_lt_add_iff_right, ih]
      constructor
      · rintro ⟨d, hd, hm⟩
        exact ⟨d, List.mem_cons_of_mem _ hd, hm⟩
      · rintro ⟨d, hd, hm⟩
        rcases List.mem_cons.mp hd with h' | h'
        · exact absurd (h' ▸ hm) h
        · exact ⟨d, h', hm⟩

lemma meta_chars_perm : SHELL_META_CHARACTERS.Perm claimMetaChars := by
  decide

lemma openBadArgs_iff (toPtr fromPtr : Bool) (cmd : Option String)
    (argv : Option (List String)) :
    openBadArgs toPtr fromPtr cmd argv = true ↔
      toPtr = false ∨ fromPtr = false ∨ cmd = none ∨
      (∃ c, cmd = some c ∧ hasMeta c = true ∧ argv ≠ none) ∨
      (∃ c, cmd = some c ∧ hasMeta c = false ∧ argv = none) := by
  cases cmd with
  | none => simp [openBadArgs]
  | some c =>
    cases argv with
    | none => cases hm : hasMeta c <;> simp [openBadArgs, hm]
    | some a => cases hm : hasMeta c <;> simp [openBadArgs, hm]

lemma ptyOpenBadArgs_iff (masterPtr slavePtr : Bool) (slavenamesize : Nat)
    (cmd : Option String) (argv : Option (List String)) :
    ptyOpenBadArgs masterPtr slavePtr slavenamesize cmd argv = true ↔
      masterPtr = false ∨ slavePtr = false ∨ slavenamesize < 64 ∨ cmd = none ∨
      (∃ c, cmd = some c ∧ hasMeta c = true ∧ argv ≠ none) ∨
      (∃ c, cmd = some c ∧ hasMeta c = false ∧ argv = none) := by
  cases cmd with
  | none => simp [ptyOpenBadArgs]
  | some c =>
    cases argv with
    | none =>
      cases hm : hasMeta c <;> simp [ptyOpenBadArgs, hm] <;> tauto
    | some a =>
      cases hm : hasMeta c <;> simp [ptyOpenBadArgs, hm] <;> tauto

lemma coproc_open_einval_iff (toPtr fromPtr : Bool) (cmd : Option String)
    (argv : Option (List String)) (env : OpenEnv) :
    (coproc_open toPtr fromPtr cmd argv env).1 = .einval ↔
      openBadArgs toPtr fromPtr cmd argv = true := by
  by_cases h : openBadArgs toPtr fromPtr cmd argv = true
  · simp [coproc_open, h]
  · rw [Bool.not_eq_true] at h
    obtain ⟨p1, p2, fk⟩ := env
    rcases p1 with _ | ⟨rd1, wr1⟩ <;> rcases p2 with _ | ⟨rd2, wr2⟩ <;>
      rcases fk with _ | pid <;> simp [coproc_open, h]

lemma coproc_pty_open_einval_iff (masterPtr slavePtr : Bool) (slavenamesize : Nat)
    (cmd : Option String) (argv : Option (List String)) (ptyForkPid : Option Int) :
    (coproc_pty_open masterPtr slavePtr slavenamesize cmd argv ptyForkPid).1 = .einval ↔
      ptyOpenBadArgs masterPtr slavePtr slavenamesize cmd argv = true := by
  by_cases h : ptyOpenBadArgs masterPtr slavePtr slavenamesize cmd argv = true
  · simp [coproc_pty_open, h]
  · rw [Bool.not_eq_true] at h
    rcases ptyForkPid with _ | pid <;> simp [coproc_pty_open, h]

end Coproc

open Coproc

/-- C1: for coproc_open and coproc_pty_open, validation happens before
any resource is created: the EINVAL return happens exactly when to,
from, or cmd is null (masterfd, slavename, or a slavenamesize under 64
additionally for the pty variant), or cmd has a shell metacharacter
with argv non-null, or cmd has no shell metacharacter with argv null;
and whenever EINVAL is returned, the event trace is empty — no pipe,
no pseudo-terminal, and no process was created. -/
theorem C1_validation_before_resources
    (toPtr fromPtr : Bool) (cmd : Option String) (argv : Option (List String))
    (env : OpenEnv) (masterPtr slavePtr : Bool) (slavenamesize : Nat)
    (ptyForkPid : Option Int) :
    ((coproc_open toPtr fromPtr cmd argv env).1 = .einval ↔
      toPtr = false ∨ fromPtr = false ∨ cmd = none ∨
      (∃ c, cmd = some c ∧ hasMeta c = true ∧ argv ≠ none) ∨
      (∃ c, cmd = some c ∧ hasMeta c = false ∧ argv = none)) ∧
    ((coproc_open toPtr fromPtr cmd argv env).1 = .einval →
      coproc_open toPtr fromPtr cmd argv env = (.einval, [])) ∧
    ((coproc_pty_open masterPtr slavePtr slavenamesize cmd argv ptyForkPid).1 = .einval ↔
      masterPtr = false ∨ slavePtr = false ∨ slavenamesize < 64 ∨ cmd = none ∨
      (∃ c, cmd = some c ∧ hasMeta c = true ∧ argv ≠ none) ∨
      (∃ c, cmd = some c ∧ hasMeta c = false ∧ argv = none)) ∧
    ((coproc_pty_open masterPtr slavePtr slavenamesize cmd argv ptyForkPid).1 = .einval →
      coproc_pty_open masterPtr slavePtr slavenamesize cmd argv ptyForkPid = (.einval, [])) := by
  refine ⟨?_, ?_, ?_, ?_⟩
  · rw [coproc_open_einval_iff, openBadArgs_iff]
  · intro h
    rw [coproc_open_einval_iff] at h
    simp [coproc_open, h]
  · rw [coproc_pty_open_einval_iff, ptyOpenBadArgs_iff]
  · intro h
    rw [coproc_pty_open_einval_iff] at h
    simp [coproc_pty_open, h]

/-- Witness for C1: with a null `to` pointer, coproc_open returns
EINVAL having created nothing. -/
theorem C1_witness :
    coproc_open false true (some "cat") (some ["cat"])
      ⟨some (3, 4), some (5, 6), some 7⟩ = (.einval, []) := by
  have h := C1_validation_before_resources false true (some "cat") (some ["cat"])
    ⟨some (3, 4), some (5, 6), some 7⟩ true true 64 (some 7)
  exact h.2.1 (h.1.mpr (Or.inl rfl))

/-- C3: each resource-creation failure in coproc_open rolls back
exactly what was already opened: a failing first pipe() allocates
nothing; a failing second pipe() closes both descriptors of the first
pipe before returning; a failing fork() closes all four descriptors
before returning; and on every failure the trace closes exactly the
created descriptors, no fork event exists, and the result carries no
to/from values (the pointers are written only in the success result). -/
theorem C3_open_rollback (toPtr fromPtr : Bool) (cmd : Option String)
    (argv : Option (List String)) (env : OpenEnv)
    (hvalid : openBadArgs toPtr fromPtr cmd argv = false) :
    (env.pipe1 = none → coproc_open toPtr fromPtr cmd argv env = (.sysfail, [])) ∧
    (∀ rd1 wr1, env.pipe1 = some (rd1, wr1) → env.pipe2 = none →
      coproc_open toPtr fromPtr cmd argv env =
        (.sysfail, [.pipeCreated rd1 wr1, .fdClosed rd1, .fdClosed wr1])) ∧
    (∀ rd1 wr1 rd2 wr2, env.pipe1 = some (rd1, wr1) → env.pipe2 = some (rd2, wr2) →
      env.forkPid = none →
      coproc_open toPtr fromPtr cmd argv env =
        (.sysfail, [.pipeCreated rd1 wr1, .pipeCreated rd2 wr2,
          .fdClosed rd1, .fdClosed wr1, .fdClosed rd2, .fdClosed wr2])) ∧
    ((coproc_open toPtr fromPtr cmd argv env).1 = .sysfail →
      closedFds (coproc_open toPtr fromPtr cmd argv env).2 =
        createdFds (coproc_open toPtr fromPtr cmd argv env).2 ∧
      forkHappened (coproc_open toPtr fromPtr cmd argv env).2 = false) := by
  obtain ⟨p1, p2, fk⟩ := env
  refine ⟨?_, ?_, ?_, ?_⟩ <;>
    rcases p1 with _ | ⟨rd1, wr1⟩ <;> rcases p2 with _ | ⟨rd2, wr2⟩ <;>
      rcases fk with _ | pid <;>
        simp [coproc_open, hvalid, closedFds, createdFds, forkHappened] <;>
          tauto

/-- Witness for C3: with the second pipe() failing, coproc_open closes
both descriptors of the first pipe and returns the failure. -/
theorem C3_witness :
    coproc_open true true (some "cat") (some ["cat"]) ⟨some (3, 4), none, none⟩ =
      (.sysfail, [.pipeCreated 3 4, .fdClosed 3, .fdClosed 4]) :=
  (C3_open_rollback true true (some "cat") (some ["cat"])
    ⟨some (3, 4), none, none⟩ (by decide)).2.1 3 4 rfl rfl

/-- C8: the command classifier reports a shell metacharacter exactly
when the string contains at least one character of the fixed set the
specification lists (pipe, ampersand, semicolon, parentheses, angle
brackets, square brackets, braces, dollar, backtick, single and double
quote, tilde, backslash, asterisk, question mark, space, tab, carriage
return, newline); the classification is purely lexical over the
characters of the string. -/
theorem C8_classifier_fixed_set (cmd : String) :
    hasMeta cmd = true ↔ ∃ c ∈ cmd.toList, c ∈ claimMetaChars := by
  unfold hasMeta
  rw [decide_eq_true_iff, strcspn_lt_iff]
  constructor
  · rintro ⟨c, hc, hm⟩
    exact ⟨c, hc, meta_chars_perm.mem_iff.mp hm⟩
  · rintro ⟨c, hc, hm⟩
    exact ⟨c, hc, meta_chars_perm.mem_iff.mpr hm⟩

namespace Coproc

lemma coproc_close_toOut (pid : Int) (t f w : Option Int) :
    (coproc_close pid t f w).toOut = t.map (fun _ => (-1 : Int)) := by
  rcases t with _ | v
  · rfl
  · by_cases h : v = -1 <;> simp [coproc_close, h]

lemma coproc_close_fromOut (pid : Int) (t f w : Option Int) :
    (coproc_close pid t f w).fromOut = f.map (fun _ => (-1 : Int)) := by
  rcases f with _ | v
  · rcases t with _ | u
    · rfl
    · by_cases h : u = -1 <;> simp [coproc_close, h]
  · rcases t with _ | u
    · by_cases h : v = -1 <;> simp [coproc_close, h]
    · by_cases h : v = -1 <;> by_cases h' : u = -1 <;> simp [coproc_close, h, h']

lemma coproc_close_closedList (pid : Int) (t f w : Option Int) :
    (coproc_close pid t f w).closedList =
      (match t with
        | some v => if v = -1 then [] else [v]
        | none => []) ++
      (match f with
        | some v => if v = -1 then [] else [v]
        | none => []) := by
  rcases t with _ | u <;> rcases f with _ | v
  · rfl
  · by_cases h : v = -1 <;> simp [coproc_close, h]
  · by_cases h : u = -1 <;> simp [coproc_close, h]
  · by_cases h : u = -1 <;> by_cases h' : v = -1 <;> simp [coproc_close, h, h']

lemma coproc_close_ret (pid : Int) (t f w : Option Int) :
    (coproc_close pid t f w).ret =
      if pid = -1 then 0 else
        match w with
        | none => -1
        | some s => s := by
  rcases t with _ | u <;> rcases f with _ | v <;>
    by_cases h : pid = -1 <;>
      simp only [coproc_close, h, if_true, if_false, ite_not, if_neg, if_pos] <;>
        split <;> simp_all [coproc_close]

lemma coproc_pty_close_parts (pid : Int) (m w : Option Int) :
    (coproc_pty_close pid m w).masterOut = m.map (fun _ => (-1 : Int)) ∧
    (coproc_pty_close pid m w).releases =
      (match m with
        | some v => if v = -1 then 0 else 1
        | none => 0) ∧
    (coproc_pty_close pid m w).closedList =
      (match m with
        | some v => if v = -1 then [] else [v]
        | none => []) ∧
    (coproc_pty_close pid m w).ret =
      (if pid = -1 then 0 else
        match w with
        | none => -1
        | some s => s) := by
  rcases m with _ | v
  · refine ⟨rfl, rfl, rfl, ?_⟩
    by_cases h : pid = -1 <;> simp [coproc_pty_close, h]
  · by_cases hv : v = -1 <;> by_cases h : pid = -1 <;>
      simp [coproc_pty_close, hv, h]

end Coproc

/-- C4: coproc_close closes `*to` and sets it to -1 only when it is
not already -1, then does the same for `*from`, then waits for the
child and returns the termination status; with pid -1 the wait is
skipped and 0 returned; and close is idempotent per descriptor: a
second call on the handle left by the first call closes nothing. -/
theorem C4_close_idempotent (pid pid2 : Int) (t f : Option Int) (w w2 : Option Int) :
    (∀ v, t = some v → v ≠ -1 →
      (coproc_close pid t f w).toOut = some (-1) ∧
      v ∈ (coproc_close pid t f w).closedList) ∧
    (∀ v, f = some v → v ≠ -1 →
      (coproc_close pid t f w).fromOut = some (-1) ∧
      v ∈ (coproc_close pid t f w).closedList) ∧
    (-1 : Int) ∉ (coproc_close pid t f w).closedList ∧
    (pid = -1 → (coproc_close pid t f w).ret = 0) ∧
    (pid ≠ -1 → ∀ s, w = some s → (coproc_close pid t f w).ret = s) ∧
    (coproc_close pid2 (coproc_close pid t f w).toOut
      (coproc_close pid t f w).fromOut w2).closedList = [] := by
  refine ⟨?_, ?_, ?_, ?_, ?_, ?_⟩
  · rintro v rfl hv
    rw [coproc_close_toOut, coproc_close_closedList]
    refine ⟨rfl, ?_⟩
    simp [hv]
  · rintro v rfl hv
    rw [coproc_close_fromOut, coproc_close_closedList]
    refine ⟨rfl, ?_⟩
    simp [hv]
  · rw [coproc_close_closedList]
    rcases t with _ | u <;> rcases f with _ | v <;> simp <;> omega
  · intro h
    rw [coproc_close_ret, if_pos h]
  · intro h s hs
    rw [coproc_close_ret, if_neg h, hs]
  · rw [coproc_close_closedList, coproc_close_toOut, coproc_close_fromOut]
    rcases t with _ | u <;> rcases f with _ | v <;> simp

/-- Witness for C4: closing a live handle (to=3, from=4) closes both
descriptors; a second close on the result closes nothing. -/
theorem C4_witness :
    ((coproc_close 5 (some 3) (some 4) (some 0)).toOut = some (-1) ∧
      (3 : Int) ∈ (coproc_close 5 (some 3) (some 4) (some 0)).closedList) ∧
    (coproc_close 5 (coproc_close 5 (some 3) (some 4) (some 0)).toOut
      (coproc_close 5 (some 3) (some 4) (some 0)).fromOut (some 0)).closedList = [] :=
  ⟨(C4_close_idempotent 5 5 (some 3) (some 4) (some 0) (some 0)).1 3 rfl (by decide),
   (C4_close_idempotent 5 5 (some 3) (some 4) (some 0) (some 0)).2.2.2.2.2⟩

/-- C7: coproc_pty_close on a live handle releases the subordinate
terminal (a pty_release call, distinct from closing the descriptor),
closes the master descriptor, sets it to -1, then waits and returns
the child status (skipping the wait and returning 0 for pid -1); on an
already-closed handle no release and no close happens, so the release
is performed exactly once per successful allocation. -/
theorem C7_pty_close_release_once (pid pid2 : Int) (m : Option Int) (w w2 : Option Int) :
    (∀ v, m = some v → v ≠ -1 →
      (coproc_pty_close pid m w).releases = 1 ∧
      (coproc_pty_close pid m w).masterOut = some (-1) ∧
      (coproc_pty_close pid m w).closedList = [v]) ∧
    (m = some (-1) →
      (coproc_pty_close pid m w).releases = 0 ∧
      (coproc_pty_close pid m w).closedList = []) ∧
    (pid = -1 → (coproc_pty_close pid m w).ret = 0) ∧
    (pid ≠ -1 → ∀ s, w = some s → (coproc_pty_close pid m w).ret = s) ∧
    (coproc_pty_close pid2 (coproc_pty_close pid m w).masterOut w2).releases = 0 ∧
    (coproc_pty_close pid2 (coproc_pty_close pid m w).masterOut w2).closedList = [] := by
  obtain ⟨hm, hr, hc, hret⟩ := coproc_pty_close_parts pid m w
  refine ⟨?_, ?_, ?_, ?_, ?_, ?_⟩
  · rintro v rfl hv
    rw [hr, hc, hm]
    simp [hv]
  · rintro rfl
    rw [hr, hc]
    simp
  · intro h
    rw [hret, if_pos h]
  · intro h s hs
    rw [hret, if_neg h, hs]
  · obtain ⟨_, hr2, _, _⟩ :=
      coproc_pty_close_parts pid2 (coproc_pty_close pid m w).masterOut w2
    rw [hr2, hm]
    rcases m with _ | v <;> simp
  · obtain ⟨_, _, hc2, _⟩ :=
      coproc_pty_close_parts pid2 (coproc_pty_close pid m w).masterOut w2
    rw [hc2, hm]
    rcases m with _ | v <;> simp

/-- Witness for C7: closing a live pty handle (masterfd=9) performs
one release and closes the descriptor; a second close performs none. -/
theorem C7_witness :
    ((coproc_pty_close 5 (some 9) (some 0)).releases = 1 ∧
      (coproc_pty_close 5 (some 9) (some 0)).masterOut = some (-1) ∧
      (coproc_pty_close 5 (some 9) (some 0)).closedList = [9]) ∧
    (coproc_pty_close 5 (coproc_pty_close 5 (some 9) (some 0)).masterOut
      (some 0)).releases = 0 :=
  ⟨(C7_pty_close_release_once 5 5 (some 9) (some 0) (some 0)).1 9 rfl (by decide),
   (C7_pty_close_release_once 5 5 (some 9) (some 0) (some 0)).2.2.2.2.1⟩

/-- C10: when the wait fails (the close functions return -1), the
descriptor teardown already performed stands: every descriptor open on
entry has been closed and the pointer set to -1 (and, for the pty
variant, the terminal released) before the error is returned. -/
theorem C10_teardown_survives_wait_failure (pid : Int) (t f m : Option Int)
    (hpid : pid ≠ -1) :
    ((coproc_close pid t f none).ret = -1 ∧
      (∀ v, t = some v → (coproc_close pid t f none).toOut = some (-1)) ∧
      (∀ v, f = some v → (coproc_close pid t f none).fromOut = some (-1)) ∧
      (∀ v, t = some v → v ≠ -1 → v ∈ (coproc_close pid t f none).closedList) ∧
      (∀ v, f = some v → v ≠ -1 → v ∈ (coproc_close pid t f none).closedList)) ∧
    ((coproc_pty_close pid m none).ret = -1 ∧
      (∀ v, m = some v → (coproc_pty_close pid m none).masterOut = some (-1)) ∧
      (∀ v, m = some v → v ≠ -1 →
        (coproc_pty_close pid m none).releases = 1 ∧
        v ∈ (coproc_pty_close pid m none).closedList)) := by
  obtain ⟨hm, hr, hc, hret⟩ := coproc_pty_close_parts pid m none
  refine ⟨⟨?_, ?_, ?_, ?_, ?_⟩, ?_, ?_, ?_⟩
  · rw [coproc_close_ret, if_neg hpid]
  · rintro v rfl
    rw [coproc_close_toOut]
    rfl
  · rintro v rfl
    rw [coproc_close_fromOut]
    rfl
  · rintro v rfl hv
    rw [coproc_close_closedList]
    simp [hv]
  · rintro v rfl hv
    rw [coproc_close_closedList]
    simp [hv]
  · rw [hret, if_neg hpid]
  · rintro v rfl
    rw [hm]
    rfl
  · rintro v rfl hv
    rw [hr, hc]
    simp [hv]

/-- Witness for C10: with pid 5 and a failing waitpid, coproc_close
returns -1 with to already closed and set to -1. -/
theorem C10_witness :
    (coproc_close 5 (some 3) (some 4) none).ret = -1 ∧
    (coproc_close 5 (some 3) (some 4) none).toOut = some (-1) ∧
    (3 : Int) ∈ (coproc_close 5 (some 3) (some 4) none).closedList := by
  have h := C10_teardown_survives_wait_failure 5 (some 3) (some 4) (some 9) (by decide)
  exact ⟨h.1.1, h.1.2.1 3 rfl, h.1.2.2.2.1 3 rfl (by decide)⟩

namespace Coproc

/-- The exec oracle for the C2 counterexample: the candidate "a/x"
fails with ENOENT — an error that is neither EACCES nor ENOEXEC —
and every other call succeeds. -/
def exC2 : ExecCall → ExecResult := fun c =>
  if c.path = "a/x" then .fail ENOENT else .success

/-- The exec oracle for the C5 witness: "/tmp/script" fails with
ENOEXEC, everything else succeeds. -/
def exC5 : ExecCall → ExecResult := fun c =>
  if c.path = "/tmp/script" then .fail ENOEXEC else .success

end Coproc

/-- C2 counterexample: with candidate list ["a", "b"] and the first
candidate failing with ENOENT (not EACCES, not ENOEXEC), the search
does NOT terminate with that failure — the second candidate is still
attempted — refuting the claim that any error other than EACCES and
ENOEXEC terminates the search. -/
theorem C2_counterexample :
    ¬ (pathSearchLoop "x" ["x"] [] exC2 ["a", "b"] =
        [.exec ⟨"a/x", ["x"], []⟩ (.fail ENOENT)]) ∧
    pathSearchLoop "x" ["x"] [] exC2 ["a", "b"] =
      [.exec ⟨"a/x", ["x"], []⟩ (.fail ENOENT),
       .exec ⟨"b/x", ["x"], []⟩ .success] := by
  constructor
  · decide
  · decide

/-- C2 (amended): for each candidate directory in order, an oversized
candidate path is skipped and the search continues; a successful
execve ends the search; EACCES continues the search; ENOEXEC triggers
exactly one interpreter-fallback retry and then terminates the search
regardless of the retry's outcome; and a failure with any other errno
ALSO continues the search with the next candidate (it does not
terminate the search). -/
theorem C2_path_search_error_policy (cmd : String) (argv : List String)
    (env : List String) (ex : ExecCall → ExecResult) (dir : String)
    (rest : List String) :
    (512 ≤ (mkCandidate dir cmd).length →
      pathSearchLoop cmd argv env ex (dir :: rest) =
        .skippedCandidate (mkCandidate dir cmd) ::
          pathSearchLoop cmd argv env ex rest) ∧
    ((mkCandidate dir cmd).length < 512 →
      ex ⟨mkCandidate dir cmd, argv, env⟩ = .success →
      pathSearchLoop cmd argv env ex (dir :: rest) =
        [.exec ⟨mkCandidate dir cmd, argv, env⟩ .success]) ∧
    ((mkCandidate dir cmd).length < 512 →
      ex ⟨mkCandidate dir cmd, argv, env⟩ = .fail EACCES →
      pathSearchLoop cmd argv env ex (dir :: rest) =
        .exec ⟨mkCandidate dir cmd, argv, env⟩ (.fail EACCES) ::
          pathSearchLoop cmd argv env ex rest) ∧
    ((mkCandidate dir cmd).length < 512 →
      ex ⟨mkCandidate dir cmd, argv, env⟩ = .fail ENOEXEC →
      pathSearchLoop cmd argv env ex (dir :: rest) =
        [.exec ⟨mkCandidate dir cmd, argv, env⟩ (.fail ENOEXEC),
         .exec ⟨"/bin/sh", new_shargv (mkCandidate dir cmd) argv, env⟩
           (ex ⟨"/bin/sh", new_shargv (mkCandidate dir cmd) argv, env⟩)]) ∧
    (∀ e, (mkCandidate dir cmd).length < 512 →
      ex ⟨mkCandidate dir cmd, argv, env⟩ = .fail e →
      e ≠ EACCES → e ≠ ENOEXEC →
      pathSearchLoop cmd argv env ex (dir :: rest) =
        .exec ⟨mkCandidate dir cmd, argv, env⟩ (.fail e) ::
          pathSearchLoop cmd argv env ex rest) := by
  refine ⟨?_, ?_, ?_, ?_, ?_⟩
  · intro h
    simp [pathSearchLoop, h]
  · intro h hx
    simp [pathSearchLoop, Nat.not_le_of_lt h, hx]
  · intro h hx
    simp [pathSearchLoop, Nat.not_le_of_lt h, hx]
  · intro h hx
    simp [pathSearchLoop, Nat.not_le_of_lt h, hx, EACCES, ENOEXEC]
  · intro e h hx h1 h2
    simp [pathSearchLoop, Nat.not_le_of_lt h, hx, h1, h2]

/-- Witness for C2 (amended): after an ENOENT failure on candidate
"a/x" the search continues with the remaining candidates. -/
theorem C2_witness :
    pathSearchLoop "x" ["x"] [] exC2 ["a", "b"] =
      .exec ⟨mkCandidate "a" "x", ["x"], []⟩ (.fail ENOENT) ::
        pathSearchLoop "x" ["x"] [] exC2 ["b"] :=
  (C2_path_search_error_policy "x" ["x"] [] exC2 "a" ["b"]).2.2.2.2 ENOENT
    (by decide) (by decide) (by decide) (by decide)

/-- C5: on an ENOEXEC failure of a direct replacement attempt, the
fallback retry execs "/bin/sh" with a freshly built argument vector
equal to the interpreter name, then the attempted command path, then
the tail of the caller's argv (the caller's argv itself is a value and
is never mutated); the same builder output is used by the path-search
fallback on its attempted candidate path. -/
theorem C5_interpreter_fallback_argv (cmd : String) (argv : List String)
    (envv : Option (List String)) (environ : List String)
    (pathEnv : Option String) (euid : Nat) (ex : ExecCall → ExecResult)
    (hnometa : hasMeta cmd = false)
    (hsep : containsSep cmd = true)
    (hx : ex ⟨cmd, argv, envOf envv environ⟩ = .fail ENOEXEC) :
    do_exec (hasMeta cmd) cmd argv envv environ pathEnv euid ex =
      [.exec ⟨cmd, argv, envOf envv environ⟩ (.fail ENOEXEC),
       .exec ⟨"/bin/sh", new_shargv cmd argv, envOf envv environ⟩
         (ex ⟨"/bin/sh", new_shargv cmd argv, envOf envv environ⟩)] ∧
    new_shargv cmd argv = "/bin/sh" :: cmd :: argv.tail ∧
    (new_shargv cmd argv).get? 0 = some "/bin/sh" ∧
    (new_shargv cmd argv).get? 1 = some cmd ∧
    (∀ i, (new_shargv cmd argv).get? (i + 2) = argv.get? (i + 1)) ∧
    (∀ cmd2 dir rest, (mkCandidate dir cmd2).length < 512 →
      ex ⟨mkCandidate dir cmd2, argv, envOf envv environ⟩ = .fail ENOEXEC →
      pathSearchLoop cmd2 argv (envOf envv environ) ex (dir :: rest) =
        [.exec ⟨mkCandidate dir cmd2, argv, envOf envv environ⟩ (.fail ENOEXEC),
         .exec ⟨"/bin/sh", new_shargv (mkCandidate dir cmd2) argv,
           envOf envv environ⟩
           (ex ⟨"/bin/sh", new_shargv (mkCandidate dir cmd2) argv,
             envOf envv environ⟩)]) := by
  rw [hnometa]
  refine ⟨?_, ?_, rfl, rfl, ?_, ?_⟩
  · simp [do_exec, hsep, hx, ENOEXEC]
  · rw [new_shargv, List.drop_one]
  · intro i
    simp [new_shargv]
  · intro cmd2 dir rest h hx2
    simp [pathSearchLoop, Nat.not_le_of_lt h, hx2, EACCES, ENOEXEC]

/-- Witness for C5: a direct exec of "/tmp/script" with argv
["script", "a"] failing with ENOEXEC retries as
/bin/sh ["/bin/sh", "/tmp/script", "a"]. -/
theorem C5_witness :
    do_exec (hasMeta "/tmp/script") "/tmp/script" ["script", "a"] none [] none 0
        exC5 =
      [.exec ⟨"/tmp/script", ["script", "a"], []⟩ (.fail ENOEXEC),
       .exec ⟨"/bin/sh", ["/bin/sh", "/tmp/script", "a"], []⟩ .success] := by
  have h := C5_interpreter_fallback_argv "/tmp/script" ["script", "a"] none []
    none 0 exC5 (by decide) (by decide) (by decide)
  simpa [new_shargv, exC5, envOf] using h.1

/-- C6: every command classified as containing shell metacharacters is
run by replacing the child's image with "/bin/sh" given exactly the
three arguments "sh", "-c", and the unmodified command string, under
the caller-supplied environment when one was given and the current
process environment otherwise. -/
theorem C6_shell_invocation (cmd : String) (argv : List String)
    (envv : Option (List String)) (environ : List String)
    (pathEnv : Option String) (euid : Nat) (ex : ExecCall → ExecResult)
    (hmeta : hasMeta cmd = true) :
    do_exec (hasMeta cmd) cmd argv envv environ pathEnv euid ex =
      [.exec ⟨"/bin/sh", ["sh", "-c", cmd], envOf envv environ⟩
        (ex ⟨"/bin/sh", ["sh", "-c", cmd], envOf envv environ⟩)] ∧
    (∀ e, envOf (some e) environ = e) ∧
    envOf none environ = environ := by
  rw [hmeta]
  exact ⟨by simp [do_exec], fun e => rfl, rfl⟩

/-- Witness for C6: "cat | sort" (which has metacharacters) execs
/bin/sh with exactly ["sh", "-c", "cat | sort"] and the current
environment when no environment vector was supplied. -/
theorem C6_witness :
    do_exec (hasMeta "cat | sort") "cat | sort" [] none ["E=1"] none 0
        (fun _ => .success) =
      [.exec ⟨"/bin/sh", ["sh", "-c", "cat | sort"], ["E=1"]⟩ .success] :=
  (C6_shell_invocation "cat | sort" [] none ["E=1"] none 0
    (fun _ => .success) (by decide)).1

namespace Coproc

/-- Spec-side inverse of the splitter: the search path obtained by
joining candidate directories with the list separator. Used to state
that do_exec splits the search path on its list separator into exactly
that ordered sequence of directories. -/
def joinDirs : List String → String
  | [] => ""
  | [d] => d
  | d :: rest => d ++ ":" ++ joinDirs rest

lemma toList_append (s t : String) : (s ++ t).toList = s.toList ++ t.toList :=
  rfl

lemma splitPathAux_no_sep (l acc : List Char) (h : PATH_LIST_SEP ∉ l) :
    splitPathAux l acc = [acc.reverse ++ l] := by
  induction l generalizing acc with
  | nil => simp [splitPathAux]
  | cons c rest ih =>
    have hc : ¬ c = PATH_LIST_SEP := fun hh => h (hh ▸ List.mem_cons_self c rest)
    simp only [splitPathAux, if_neg hc]
    rw [ih (c :: acc) (fun hm => h (List.mem_cons_of_mem _ hm))]
    simp

lemma splitPathAux_sep (l1 l2 acc : List Char) (h : PATH_LIST_SEP ∉ l1) :
    splitPathAux (l1 ++ PATH_LIST_SEP :: l2) acc =
      (acc.reverse ++ l1) :: splitPathAux l2 [] := by
  induction l1 generalizing acc with
  | nil => simp [splitPathAux]
  | cons c rest ih =>
    have hc : ¬ c = PATH_LIST_SEP := fun hh => h (hh ▸ List.mem_cons_self c rest)
    simp only [List.cons_append, splitPathAux, if_neg hc, List.append_eq]
    rw [ih (c :: acc) (fun hm => h (List.mem_cons_of_mem _ hm))]
    simp

lemma splitPath_joinDirs (dirs : List String) (hne : dirs ≠ [])
    (h : ∀ d ∈ dirs, PATH_LIST_SEP ∉ d.toList) :
    splitPath (joinDirs dirs) = dirs := by
  induction dirs with
  | nil => exact absurd rfl hne
  | cons d rest ih =>
    rcases rest with _ | ⟨d2, rest2⟩
    · rw [show joinDirs [d] = d from rfl]
      unfold splitPath
      rw [splitPathAux_no_sep d.toList [] (h d (List.mem_cons_self d []))]
      simp only [List.reverse_nil, List.nil_append, List.map_cons, List.map_nil]
      rw [String.asString_toList]
    · have hjoin : joinDirs (d :: d2 :: rest2) = d ++ ":" ++ joinDirs (d2 :: rest2) :=
        rfl
      have htl : (joinDirs (d :: d2 :: rest2)).toList =
          d.toList ++ PATH_LIST_SEP :: (joinDirs (d2 :: rest2)).toList := by
        rw [hjoin, toList_append, toList_append, List.append_assoc]
        rfl
      unfold splitPath
      rw [htl, splitPathAux_sep _ _ _ (h d (List.mem_cons_self d _))]
      simp only [List.reverse_nil, List.nil_append, List.map_cons,
        String.asString_toList]
      have ih2 := ih (List.cons_ne_nil d2 rest2)
        (fun x hx => h x (List.mem_cons_of_mem _ hx))
      unfold splitPath at ih2
      rw [ih2]

end Coproc

/-- C9: with no PATH variable, the search path is "/bin:/usr/bin" for
effective uid 0 and ":/bin:/usr/bin" otherwise; the search path is
split on the list separator into the ordered sequence of candidate
directories (joining any separator-free directories and splitting
recovers them, and the two defaults split as expected, the empty first
segment kept); and for an empty segment the candidate path is the bare
command with no directory prefix. -/
theorem C9_default_search_path :
    searchPath none 0 = "/bin:/usr/bin" ∧
    (∀ euid : Nat, euid ≠ 0 → searchPath none euid = ":/bin:/usr/bin") ∧
    splitPath "/bin:/usr/bin" = ["/bin", "/usr/bin"] ∧
    splitPath ":/bin:/usr/bin" = ["", "/bin", "/usr/bin"] ∧
    (∀ dirs : List String, dirs ≠ [] →
      (∀ d ∈ dirs, PATH_LIST_SEP ∉ d.toList) →
      splitPath (joinDirs dirs) = dirs) ∧
    (∀ cmd, mkCandidate "" cmd = cmd) := by
  refine ⟨rfl, ?_, by decide, by decide, splitPath_joinDirs, fun cmd => rfl⟩
  intro euid h
  rw [searchPath, if_pos h]
  rfl

/-- Witness for C9: a nonzero uid yields the user default path, and
joining then splitting the two default directories is the identity. -/
theorem C9_witness :
    searchPath none 1 = ":/bin:/usr/bin" ∧
    splitPath (joinDirs ["/bin", "/usr/bin"]) = ["/bin", "/usr/bin"] := by
  have h := C9_default_search_path
  exact ⟨h.2.1 1 (by decide),
    h.2.2.2.2.1 ["/bin", "/usr/bin"] (by decide) (by decide)⟩
